import Mathlib

/-!
Shallow embedding of `src/loadgen/runners.py` (octoml/ort-mlcommons-loadgen).

A batch (`QueryInput`, a Python dict mapping QueryId to ModelInput) is embedded
as an association list `List (QueryId × α)` in dict insertion order, with
distinct keys.  A callback invocation (`callback({query_id: result, ...})`) is
embedded as the association list passed to the callback, and a run's callback
trace as the list of such invocations in the order they happen.

Python computations that may raise are embedded with explicit outcome types:
a model prediction that may raise is `Outcome ε β`, and runner entry points
return the error explicitly.  `RunnerError.lifecycle` stands for the
contract-violation failures of the source (the `assert` statements in
`issue_query`, raising `AssertionError`, and `flush_queries` reading
`self.task.get()` on a `None` task, raising `AttributeError`), the abstract
`LifecycleError` of the error taxonomy.
-/

namespace LoadGen

/-- Query identifiers are integers (`QueryId` in the data model). -/
abbrev QueryId := Nat

/-- Outcome of a computation that may raise: `ok v` for a normal return,
`fail e` for a raised exception `e` (a `PredictionError`). -/
inductive Outcome (ε β : Type) where
  | ok (v : β)
  | fail (e : ε)
deriving DecidableEq, Repr

/-- Did the computation return normally? -/
def Outcome.isOk : Outcome ε β → Bool
  | .ok _ => true
  | .fail _ => false

/-- The delivered value of a normal return, `none` on a raise. -/
def Outcome.toOption : Outcome ε β → Option β
  | .ok v => some v
  | .fail _ => none

@[simp]
theorem Outcome.isOk_ok (v : β) : (Outcome.ok v : Outcome ε β).isOk = true := rfl

@[simp]
theorem Outcome.isOk_fail (e : ε) : (Outcome.fail e : Outcome ε β).isOk = false := rfl

@[simp]
theorem Outcome.toOption_ok (v : β) :
    (Outcome.ok v : Outcome ε β).toOption = some v := rfl

@[simp]
theorem Outcome.toOption_fail (e : ε) :
    (Outcome.fail e : Outcome ε β).toOption = none := rfl

/-- Contract-violation failure of a runner entry point (the spec's
`LifecycleError`; in the source an `AssertionError` or `AttributeError`). -/
inductive RunnerError where
  | lifecycle
deriving DecidableEq, Repr

/-- Failure of `flush_queries`: either a contract violation (nothing pending)
or a `PredictionError` re-raised while retrieving the grouped task's result. -/
inductive FlushError (ε : Type) where
  | lifecycle
  | prediction (e : ε)
deriving DecidableEq, Repr

/-! ### ModelRunnerInline

`issue_query` loops over `queries.items()`; for each pair it computes
`output = self.model.predict(model_input)` and then calls
`callback({query_id: output})`.  The embedding returns the callback trace:
one singleton invocation per pair, in iteration order. -/

/-- `ModelRunnerInline.issue_query`, embedded as the callback trace it
produces: the loop body computes the prediction, then invokes the callback
with the single-entry mapping. -/
def ModelRunnerInline.issue_query (predict : α → β) :
    List (QueryId × α) → List (List (QueryId × β))
  | [] => []
  | (query_id, model_input) :: rest =>
    let output := predict model_input
    [(query_id, output)] :: ModelRunnerInline.issue_query predict rest

/-! ### ModelRunnerPoolExecutor (base of the three executor-backed variants)

State: `self.futures`, the handle table mapping an in-flight future to its
QueryId (embedded as an association list keyed by a future identity `fid`),
and `self.callback_fn`.  `issue_query` asserts the table is empty, stores the
callback, and submits one unit of work per query, recording each future's
table entry; the future's eventual result is the predictor applied to the
query's input.  `_future_callback` pops the completed future's table entry,
retrieves `f.result()` (re-raising a worker exception), and invokes the
callback with the single-entry mapping.  Completion order is
backend-determined, so a drain processes the issued futures in an arbitrary
permutation. -/

/-- An in-flight unit of work: its identity, the QueryId it was submitted
for, and the outcome its worker computed (`f.result()`). -/
structure PendingFuture (ε β : Type) where
  fid : Nat
  qid : QueryId
  res : Outcome ε β
deriving DecidableEq, Repr

/-- The mutable fields of `ModelRunnerPoolExecutor`: the future→QueryId
handle table and whether `callback_fn` is set. -/
structure PoolExecState where
  futures : List (Nat × QueryId)
  callbackSet : Bool
deriving DecidableEq, Repr

/-- The idle pool-executor state: empty handle table. -/
def PoolExecState.idle : PoolExecState := ⟨[], false⟩

/-- The futures created by one `issue_query` call: one per query, in batch
order, with fresh identities `i, i+1, ...` and results computed by the
predictor. -/
def mkFuturesFrom (predictor : α → Outcome ε β) (i : Nat) :
    List (QueryId × α) → List (PendingFuture ε β)
  | [] => []
  | (query_id, model_input) :: rest =>
    ⟨i, query_id, predictor model_input⟩ :: mkFuturesFrom predictor (i + 1) rest

/-- The futures created by one `issue_query` call, identities starting at 0. -/
def mkFutures (predictor : α → Outcome ε β) (queries : List (QueryId × α)) :
    List (PendingFuture ε β) :=
  mkFuturesFrom predictor 0 queries

/-- `ModelRunnerPoolExecutor.issue_query`: `assert not self.futures`, then
store the callback and submit one unit per query, recording each handle→id
entry.  Returns the new state, the submitted futures, and the entry point's
outcome; on the assertion failure nothing is submitted and the state is
unchanged. -/
def ModelRunnerPoolExecutor.issue_query (predictor : α → Outcome ε β)
    (st : PoolExecState) (queries : List (QueryId × α)) :
    PoolExecState × List (PendingFuture ε β) × Except RunnerError Unit :=
  match st.futures with
  | _ :: _ => (st, [], .error .lifecycle)
  | [] =>
    let fs := mkFutures predictor queries
    (⟨fs.map (fun f => (f.fid, f.qid)), true⟩, fs, .ok ())

/-- `ModelRunnerPoolExecutor._future_callback` for one completed future:
pop the future's table entry (the popped value is the QueryId used for the
callback), then `f.result()`: on a normal result invoke the callback with
the single-entry mapping, on a worker exception re-raise (the callback is
not invoked; the executor machinery swallows the raised error).  Returns the
new state, the callback invocations made (none or one), and the errors that
surfaced (none or one).  The `lookup = none` branch (`KeyError` from `pop`)
is unreachable while the hook only runs for futures in the table. -/
def ModelRunnerPoolExecutor.future_callback (st : PoolExecState)
    (f : PendingFuture ε β) :
    PoolExecState × List (List (QueryId × β)) × List ε :=
  match st.futures.lookup f.fid with
  | none => (st, [], [])
  | some query_id =>
    let st' : PoolExecState := ⟨st.futures.filter (fun e => e.1 != f.fid), st.callbackSet⟩
    match f.res with
    | .ok v => (st', [[(query_id, v)]], [])
    | .fail e => (st', [], [e])

/-- Draining a batch: the completion hooks run once per issued future, in a
backend-determined order; the trace concatenates each hook's callback
invocations and surfaced errors. -/
def ModelRunnerPoolExecutor.drain (st : PoolExecState) :
    List (PendingFuture ε β) → PoolExecState × List (List (QueryId × β)) × List ε
  | [] => (st, [], [])
  | f :: rest =>
    let r := ModelRunnerPoolExecutor.future_callback st f
    let rr := ModelRunnerPoolExecutor.drain r.1 rest
    (rr.1, r.2.1 ++ rr.2.1, r.2.2 ++ rr.2.2)

/-! ### ModelRunnerMultiProcessingPool (the batch-pool variant)

State: `self.task` (the grouped `starmap_async` handle, `None` when idle) and
`self.callback_fn`.  `issue_query` asserts both are unset, then records the
grouped task — one `(query_id, predict(input))` unit per pair — and the
callback, without blocking and without invoking the callback.
`flush_queries` retrieves `self.task.get()` (re-raising the first worker
exception; raising on a `None` task), assembles the full result mapping,
invokes the callback once with it, and only then resets both fields. -/

/-- The mutable fields of `ModelRunnerMultiProcessingPool`: the pending
grouped task (each entry carrying the worker outcome `_predict_with_id`
computes for it) and whether `callback_fn` is set. -/
structure MPPoolState (ε β : Type) where
  task : Option (List (QueryId × Outcome ε β))
  callbackSet : Bool
deriving DecidableEq, Repr

/-- The idle batch-pool state: no pending task, no stored callback. -/
def MPPoolState.idle : MPPoolState ε β := ⟨none, false⟩

/-- `ModelRunnerMultiProcessingPool.issue_query`: `assert self.task is None`,
`assert self.callback_fn is None`, then record the grouped task and the
callback.  It does not block and makes no callback invocation (the return
carries no trace); on an assertion failure the state is unchanged. -/
def ModelRunnerMultiProcessingPool.issue_query (predictor : α → Outcome ε β)
    (st : MPPoolState ε β) (queries : List (QueryId × α)) :
    MPPoolState ε β × Except RunnerError Unit :=
  match st.task with
  | some _ => (st, .error .lifecycle)
  | none =>
    if st.callbackSet then (st, .error .lifecycle)
    else (⟨some (queries.map fun q => (q.1, predictor q.2)), true⟩, .ok ())

/-- `MapResult.get()`: the grouped task's collected results, re-raising a
worker exception if any unit failed.  (Which failing unit's exception is
re-raised when several fail is scheduler-dependent in the source; the
embedding picks the first in submission order — no claim depends on the
choice.) -/
def collectResults : List (QueryId × Outcome ε β) → Except ε (List (QueryId × β))
  | [] => .ok []
  | (query_id, .ok v) :: rest => (collectResults rest).map (fun l => (query_id, v) :: l)
  | (_, .fail e) :: _ => .error e

/-- `ModelRunnerMultiProcessingPool.flush_queries`: with no pending task,
`self.task.get()` raises (contract violation) and nothing changes; otherwise
retrieve the grouped result — a worker exception propagates, leaving both
fields unchanged and invoking no callback — assemble the full mapping,
invoke the callback once with it (the `.ok` payload), and reset to idle. -/
def ModelRunnerMultiProcessingPool.flush_queries (st : MPPoolState ε β) :
    MPPoolState ε β × Except (FlushError ε) (List (QueryId × β)) :=
  match st.task with
  | none => (st, .error .lifecycle)
  | some task =>
    match collectResults task with
    | .error e => (st, .error (.prediction e))
    | .ok pairs => (MPPoolState.idle, .ok pairs)

/-! ### ModelRunnerThreadPoolExecutorWithTLS (the thread-local-pool variant)

The class attribute `tls` is annotated but unassigned until a worker thread's
initializer runs.  `_tls_init`, run by the executor once per worker thread at
thread start, rebinds the CLASS attribute `tls` to a fresh `threading.local()`
object and stores a newly created model under the calling thread in that
fresh object.  `_tls_predict` reads the class attribute and looks up the
calling thread's entry in whatever local object is currently bound — an
`AttributeError` if that object holds no entry for this thread.

The embedding identifies each `threading.local()` object by a generation
number and each created model instance by its creation index; the per-thread
attribute stores of all local objects live in one table keyed by
(generation, thread). -/

/-- The state of the `tls` class attribute and the model factory:
`gen` is the identity of the local object currently bound to the class
attribute (`none` before any initializer ran), `nextObj` supplies fresh
local-object identities, `created` counts `ModelFactory.create()` calls
(each new instance is identified by its creation index), and `store` holds
every local object's per-thread `model` attribute, keyed by
(local-object identity, thread). -/
structure TLSState where
  gen : Option Nat
  nextObj : Nat
  created : Nat
  store : List ((Nat × Nat) × Nat)
deriving DecidableEq, Repr

/-- The state before any worker thread started. -/
def TLSState.start : TLSState := ⟨none, 0, 0, []⟩

/-- `ModelRunnerThreadPoolExecutorWithTLS._tls_init`, run once per worker
thread `t` at thread start: bind a fresh `threading.local()` to the class
attribute, create one model instance, and store it under `t` in the fresh
object. -/
def ModelRunnerTLS.tls_init (t : Nat) (st : TLSState) : TLSState :=
  let g := st.nextObj
  ⟨some g, st.nextObj + 1, st.created + 1, ((g, t), st.created) :: st.store⟩

/-- The model instance `tls.model` resolves to for calling thread `t`:
the entry of the currently bound local object for `t`, if any. -/
def TLSState.model_for (st : TLSState) (t : Nat) : Option Nat :=
  match st.gen with
  | none => none
  | some g => st.store.lookup (g, t)

/-- `ModelRunnerThreadPoolExecutorWithTLS._tls_predict` on calling thread
`t`: look up `tls.model` for this thread and predict with it; an
`AttributeError` (embedded as `fail ()`) when the currently bound local
object has no model stored for `t`. -/
def ModelRunnerTLS.tls_predict (predict : α → β) (st : TLSState) (t : Nat)
    (input : α) : Outcome Unit β :=
  match st.model_for t with
  | none => .fail ()
  | some _ => .ok (predict input)

/-- One scheduler event on the thread pool: a worker thread's initializer
run, or a worker thread executing the submitted unit of one query. -/
inductive TLSEvent (α : Type) where
  | init (t : Nat)
  | predictq (t : Nat) (qid : QueryId) (input : α)
deriving DecidableEq, Repr

/-- Is the event an initializer run? -/
def TLSEvent.isInit : TLSEvent α → Bool
  | .init _ => true
  | .predictq _ _ _ => false

/-- Run a schedule of events: initializer runs update the tls state, and
each query execution records the worker outcome `_tls_predict` produces at
the state current when it runs.  Returns the final state and the per-query
outcomes in execution order. -/
def ModelRunnerTLS.run (predict : α → β) (st : TLSState) :
    List (TLSEvent α) → TLSState × List (QueryId × Outcome Unit β)
  | [] => (st, [])
  | .init t :: evs => ModelRunnerTLS.run predict (ModelRunnerTLS.tls_init t st) evs
  | .predictq t qid input :: evs =>
    let r := ModelRunnerTLS.run predict st evs
    (r.1, (qid, ModelRunnerTLS.tls_predict predict st t input) :: r.2)

/-! ### ModelFactory call counting per variant (worker lifecycle)

A factory is embedded as the count of `create()` calls made so far; each
call returns a fresh instance identified by its creation index.  The
constructor and lifecycle hooks below are the embeddings of the variants'
`__init__` and `__enter__` bodies, restricted to their factory calls and to
the class-global model attribute of the process-backed variants. -/

/-- The model factory's state: number of `create()` calls made so far. -/
abbrev FactoryState := Nat

/-- `ModelFactory.create()`: returns a fresh instance (its creation index)
and the advanced factory state. -/
def ModelFactory.create (s : FactoryState) : Nat × FactoryState := (s, s + 1)

/-- `ModelRunnerInline.__init__`: `self.model = model_factory.create()` —
one factory call for the whole runner. -/
def ModelRunnerInline.ctor (s : FactoryState) : Nat × FactoryState :=
  ModelFactory.create s

/-- `ModelRunnerThreadPoolExecutor.__init__`:
`self.model = model_factory.create()` — one factory call, the instance
shared by every worker thread. -/
def ModelRunnerThreadPoolExecutor.ctor (s : FactoryState) : Nat × FactoryState :=
  ModelFactory.create s

/-- The class attribute `_model` of the process-backed variants. -/
structure ProcessGlobals where
  modelOf : Option Nat
deriving DecidableEq, Repr

/-- `ModelRunnerProcessPoolExecutor.__init__`:
`ModelRunnerProcessPoolExecutor._model = model_factory.create()` — one
factory call, the instance bound to the process-global class attribute. -/
def ModelRunnerProcessPoolExecutor.ctor (s : FactoryState) :
    ProcessGlobals × FactoryState :=
  let r := ModelFactory.create s
  (⟨some r.1⟩, r.2)

/-- The runner's lifecycle state after `__enter__`: the class global as left
by `__init__`, and the started pool. -/
structure ProcessPoolLifecycle where
  globals : ProcessGlobals
  poolStarted : Bool
deriving DecidableEq, Repr

/-- The `with`-statement lifecycle of `ModelRunnerProcessPoolExecutor`:
`__init__` (which binds the class-global model) runs before `__enter__`
(which starts the pool and makes no factory call), so the global is set
before the pool starts and worker processes inherit it. -/
def ModelRunnerProcessPoolExecutor.lifecycle (s : FactoryState) :
    ProcessPoolLifecycle × FactoryState :=
  let c := ModelRunnerProcessPoolExecutor.ctor s
  (⟨c.1, true⟩, c.2)

/-- `ModelRunnerProcessPoolExecutor._predict` in a worker process: read the
inherited class-global model and predict with it; an `AttributeError`
(embedded as `fail ()`) if the global was never bound. -/
def ModelRunnerProcessPoolExecutor.worker_predict (g : ProcessGlobals)
    (predict : α → β) (input : α) : Outcome Unit β :=
  match g.modelOf with
  | none => .fail ()
  | some _ => .ok (predict input)

/-- `ModelRunnerMultiProcessingPool.__init__`:
`ModelRunnerMultiProcessingPool._model = model_factory.create()` — one
factory call binding the process-global class attribute, before `__enter__`
starts the pool. -/
def ModelRunnerMultiProcessingPool.ctor (s : FactoryState) :
    ProcessGlobals × FactoryState :=
  let r := ModelFactory.create s
  (⟨some r.1⟩, r.2)

/-! ### ModelRunnerRay (the distributed-actor-pool variant) -/

/-- `ModelRunnerRay.__enter__`: construct `max_concurrency` remote
`RayModel` actors, each of whose `__init__` makes its own
`model_factory.create()` call.  Returns each actor's model instance and the
advanced factory state. -/
def ModelRunnerRay.enter : Nat → FactoryState → List Nat × FactoryState
  | 0, s => ([], s)
  | n + 1, s =>
    let r := ModelFactory.create s
    let rest := ModelRunnerRay.enter n r.2
    (r.1 :: rest.1, rest.2)

/-- `ModelRunnerRay.issue_query`: `self.pool.map` dispatches every
`(query_id, input)` pair and collects every `(query_id, result)` before the
loop starts; the loop then invokes the callback once per collected result
with a single-entry mapping.  The whole trace is produced before
`issue_query` returns. -/
def ModelRunnerRay.issue_query (predict : α → β) (queries : List (QueryId × α)) :
    List (List (QueryId × β)) :=
  let results := queries.map fun q => (q.1, predict q.2)
  results.map fun r => [r]

/-! ### Helper lemmas -/

/-- Number of occurrences of `a` in `l`, by decidable equality. -/
def countEq [DecidableEq γ] (l : List γ) (a : γ) : Nat :=
  l.countP (fun x => decide (x = a))

theorem countEq_cons [DecidableEq γ] (b : γ) (l : List γ) (a : γ) :
    countEq (b :: l) a = countEq l a + if b = a then 1 else 0 := by
  simp [countEq, List.countP_cons]

theorem countEq_eq_zero_of_not_mem [DecidableEq γ] {l : List γ} {a : γ}
    (h : a ∉ l) : countEq l a = 0 := by
  induction l with
  | nil => rfl
  | cons b t ih =>
    rw [countEq_cons]
    have hb : ¬b = a := fun hba => h (hba ▸ List.mem_cons_self b t)
    have ht : a ∉ t := fun hm => h (List.mem_cons_of_mem _ hm)
    simp [ih ht, hb]

theorem countEq_eq_one_of_nodup [DecidableEq γ] {l : List γ} (hnd : l.Nodup)
    {a : γ} (ha : a ∈ l) : countEq l a = 1 := by
  induction l with
  | nil => simp at ha
  | cons b t ih =>
    rw [List.nodup_cons] at hnd
    rw [countEq_cons]
    rcases List.mem_cons.mp ha with h | h
    · subst h
      simp [countEq_eq_zero_of_not_mem hnd.1]
    · have hb : ¬b = a := fun hba => hnd.1 (hba ▸ h)
      simp [ih hnd.2 h, hb]

theorem countEq_perm [DecidableEq γ] {l₁ l₂ : List γ} (h : l₁.Perm l₂) (a : γ) :
    countEq l₁ a = countEq l₂ a :=
  List.Perm.countP_eq _ h

/-- In an association list with distinct keys, `lookup` finds exactly the
value a key is paired with. -/
theorem lookup_eq_of_mem_of_nodup {ν : Type} {t : List (Nat × ν)} {a : Nat} {b : ν}
    (hmem : (a, b) ∈ t) (hnd : (t.map Prod.fst).Nodup) : t.lookup a = some b := by
  induction t with
  | nil => simp at hmem
  | cons hd tl ih =>
    rw [List.map_cons, List.nodup_cons] at hnd
    obtain ⟨k, v⟩ := hd
    rcases List.mem_cons.mp hmem with h | h
    · obtain ⟨h1, h2⟩ := Prod.mk.injEq .. ▸ h.symm
      subst h1
      subst h2
      simp [List.lookup]
    · have hamem : a ∈ tl.map Prod.fst := List.mem_map_of_mem Prod.fst h
      have hne : (a == k) = false :=
        beq_eq_false_iff_ne.mpr fun he => hnd.1 (he ▸ hamem)
      simp only [List.lookup, hne]
      exact ih h hnd.2

/-! lemmas on the futures created by `issue_query` -/

theorem mkFuturesFrom_map_fid (predictor : α → Outcome ε β)
    (queries : List (QueryId × α)) :
    ∀ i, (mkFuturesFrom predictor i queries).map PendingFuture.fid =
      List.range' i queries.length := by
  induction queries with
  | nil => intro i; rfl
  | cons q rest ih =>
    intro i
    obtain ⟨qid, inp⟩ := q
    simpa [mkFuturesFrom, List.range'] using ih (i + 1)

theorem mkFuturesFrom_filterMap (predictor : α → Outcome ε β)
    (g : QueryId → Outcome ε β → Option γ) (queries : List (QueryId × α)) :
    ∀ i, (mkFuturesFrom predictor i queries).filterMap (fun f => g f.qid f.res) =
      queries.filterMap (fun q => g q.1 (predictor q.2)) := by
  induction queries with
  | nil => intro i; rfl
  | cons q rest ih =>
    intro i
    obtain ⟨qid, inp⟩ := q
    cases hg : g qid (predictor inp) <;>
      simp [mkFuturesFrom, List.filterMap_cons, hg, ih (i + 1)]

theorem mkFutures_fid_nodup (predictor : α → Outcome ε β)
    (queries : List (QueryId × α)) :
    ((mkFutures predictor queries).map PendingFuture.fid).Nodup := by
  rw [mkFutures, mkFuturesFrom_map_fid]
  exact List.nodup_range' 0 queries.length

/-- The characterization of a drain: when the processed futures have
distinct identities, each present with its QueryId in the handle table
(whose keys are distinct), every completion hook pops its own table entry,
delivers its query's successful result as a single-entry callback
invocation, and surfaces its worker error otherwise. -/
theorem drain_spec {ε β : Type} (order : List (PendingFuture ε β)) :
    ∀ (t : List (Nat × QueryId)) (cb : Bool),
      (order.map PendingFuture.fid).Nodup →
      (t.map Prod.fst).Nodup →
      (∀ f ∈ order, (f.fid, f.qid) ∈ t) →
      (ModelRunnerPoolExecutor.drain ⟨t, cb⟩ order).2 =
        (order.filterMap (fun f => f.res.toOption.map (fun v => [(f.qid, v)])),
         order.filterMap (fun f => match f.res with | .fail e => some e | .ok _ => none)) := by
  induction order with
  | nil => intro t cb _ _ _; rfl
  | cons f rest ih =>
    intro t cb hnd htnd hmem
    rw [List.map_cons, List.nodup_cons] at hnd
    have hf : (f.fid, f.qid) ∈ t := hmem f (List.mem_cons_self f rest)
    have hlk : t.lookup f.fid = some f.qid := lookup_eq_of_mem_of_nodup hf htnd
    have hsub : ((t.filter (fun e => e.1 != f.fid)).map Prod.fst).Nodup :=
      List.Nodup.sublist (List.Sublist.map Prod.fst (List.filter_sublist t)) htnd
    have hmem2 : ∀ g ∈ rest, (g.fid, g.qid) ∈ t.filter (fun e => e.1 != f.fid) := by
      intro g hg
      refine List.mem_filter.mpr ⟨hmem g (List.mem_cons_of_mem f hg), ?_⟩
      have hne : g.fid ≠ f.fid := fun he =>
        hnd.1 (he ▸ List.mem_map_of_mem PendingFuture.fid hg)
      simpa using hne
    have ihr := ih (t.filter (fun e => e.1 != f.fid)) cb hnd.2 hsub hmem2
    cases hres : f.res with
    | ok v =>
      simp [ModelRunnerPoolExecutor.drain, ModelRunnerPoolExecutor.future_callback,
        hlk, hres, List.filterMap_cons, Outcome.toOption, ihr]
    | fail e =>
      simp [ModelRunnerPoolExecutor.drain, ModelRunnerPoolExecutor.future_callback,
        hlk, hres, List.filterMap_cons, Outcome.toOption, ihr]

/-- Flattening a trace of single-entry callback invocations gives the list
of delivered (QueryId, result) pairs. -/
theorem flatten_filterMap_singleton {ε β : Type} (l : List (PendingFuture ε β)) :
    (l.filterMap (fun f => f.res.toOption.map (fun v => [(f.qid, v)]))).flatten =
      l.filterMap (fun f => f.res.toOption.map (fun v => (f.qid, v))) := by
  induction l with
  | nil => rfl
  | cons f rest ih =>
    cases hres : f.res <;>
      simp [List.filterMap_cons, hres, ih]

/-- The delivered pairs' QueryIds form a sublist of the batch's QueryIds. -/
theorem filterMap_pair_fst_sublist (p : α → Outcome ε β)
    (queries : List (QueryId × α)) :
    ((queries.filterMap (fun q => (p q.2).toOption.map (fun v => (q.1, v)))).map
        Prod.fst).Sublist (queries.map Prod.fst) := by
  induction queries with
  | nil => simp
  | cons q rest ih =>
    cases hres : (p q.2).toOption with
    | none =>
      simp only [List.filterMap_cons, hres, List.map_cons]
      exact ih.cons q.1
    | some v =>
      simp only [List.filterMap_cons, hres, List.map_cons]
      exact ih.cons₂ q.1

/-! lemmas on the grouped task's `get()` -/

theorem collectResults_all_ok {ε : Type} (f : α → β) (l : List (QueryId × α)) :
    collectResults (l.map fun q => ((q.1, Outcome.ok (f q.2)) : QueryId × Outcome ε β)) =
      .ok (l.map fun q => (q.1, f q.2)) := by
  induction l with
  | nil => rfl
  | cons q rest ih => simp [collectResults, ih, Except.map]

theorem collectResults_fail_exists {ε β : Type}
    {l : List (QueryId × Outcome ε β)} (hex : ∃ x ∈ l, x.2.isOk = false) :
    ∃ e, collectResults l = .error e := by
  induction l with
  | nil => simp at hex
  | cons x rest ih =>
    obtain ⟨qid, res⟩ := x
    cases res with
    | ok v =>
      obtain ⟨y, hy, hny⟩ := hex
      rcases List.mem_cons.mp hy with h | h
      · rw [h] at hny; simp [Outcome.isOk] at hny
      · obtain ⟨e, he⟩ := ih ⟨y, h, hny⟩
        exact ⟨e, by simp [collectResults, he, Except.map]⟩
    | fail e => exact ⟨e, rfl⟩

theorem collectResults_fail_of_forall {ε β : Type}
    {l : List (QueryId × Outcome ε β)} {e : ε}
    (hall : ∀ x ∈ l, ∀ d, x.2 = .fail d → d = e)
    (hex : ∃ x ∈ l, x.2.isOk = false) :
    collectResults l = .error e := by
  obtain ⟨d, hd⟩ := collectResults_fail_exists hex
  suffices h : d = e by rw [hd, h]
  clear hex
  induction l with
  | nil => simp [collectResults] at hd
  | cons x rest ih =>
    obtain ⟨qid, res⟩ := x
    cases res with
    | ok v =>
      rw [collectResults] at hd
      cases hc : collectResults rest with
      | error d2 =>
        rw [hc] at hd
        simp [Except.map] at hd
        exact hd ▸ ih (fun y hy => hall y (List.mem_cons_of_mem _ hy)) (hd ▸ hc)
      | ok pairs => rw [hc] at hd; simp [Except.map] at hd
    | fail d2 =>
      have : d2 = e := hall (qid, .fail d2) (List.mem_cons_self _ _) d2 rfl
      rw [collectResults] at hd
      simp at hd
      exact hd ▸ this

/-! ### Claim theorems -/

/-- Claim C2: for every batch, InlineRunner's `issue_query` invokes the
callback once per (QueryId, ModelInput) pair, in the batch's iteration
order, each invocation carrying exactly the single-entry mapping
`\x7bQueryId: QueryResult\x7d` with the prediction computed synchronously before
the callback runs: the callback trace is exactly one singleton invocation
per pair, in order, holding that pair's prediction. -/
theorem C2_inline_ordered_singleton_callbacks (predict : α → β)
    (queries : List (QueryId × α)) :
    ModelRunnerInline.issue_query predict queries =
      queries.map (fun q => [(q.1, predict q.2)]) := by
  induction queries with
  | nil => rfl
  | cons q rest ih =>
    obtain ⟨qid, inp⟩ := q
    simp [ModelRunnerInline.issue_query, ih]

/-- Witness for C2: the spec's example — batch 1:"a", 2:"b", 3:"c" with an
echo predictor gives three single-entry invocations, strictly in order. -/
theorem C2_witness :
    ModelRunnerInline.issue_query (fun s : String => s)
        [(1, "a"), (2, "b"), (3, "c")] = [[(1, "a")], [(2, "b")], [(3, "c")]] := by
  rw [C2_inline_ordered_singleton_callbacks]
  rfl

/-- Claim C3: for every pool-backed runner, `issue_query` while a previous
batch has not drained (non-empty handle table for the executor variants, a
still-pending grouped task for the batch variant) fails with the lifecycle
error, leaves the state unchanged and submits no work; it succeeds exactly
from the idle state. -/
theorem C3_pool_issue_requires_idle (p : α → Outcome ε β) (st : PoolExecState)
    (q : List (QueryId × α)) (r : γ → Outcome ζ δ) (s : MPPoolState ζ δ)
    (w : List (QueryId × γ)) :
    (st.futures ≠ [] →
      ModelRunnerPoolExecutor.issue_query p st q = (st, [], .error .lifecycle)) ∧
    ((ModelRunnerPoolExecutor.issue_query p st q).2.2 = .ok () ↔ st.futures = []) ∧
    (s.task ≠ none →
      ModelRunnerMultiProcessingPool.issue_query r s w = (s, .error .lifecycle)) ∧
    ((ModelRunnerMultiProcessingPool.issue_query r s w).2 = .ok () ↔
      s.task = none ∧ s.callbackSet = false) := by
  obtain ⟨fut, cb⟩ := st
  obtain ⟨task, cb2⟩ := s
  refine ⟨?_, ?_, ?_, ?_⟩
  · intro h
    cases fut with
    | nil => simp at h
    | cons x xs => rfl
  · cases fut with
    | nil => simp [ModelRunnerPoolExecutor.issue_query]
    | cons x xs => simp [ModelRunnerPoolExecutor.issue_query]
  · intro h
    cases task with
    | none => simp at h
    | some l => rfl
  · cases task with
    | none =>
      cases cb2 <;> simp [ModelRunnerMultiProcessingPool.issue_query]
    | some l => simp [ModelRunnerMultiProcessingPool.issue_query]

/-- Witness for C3 at concrete states: a one-entry handle table and a
pending grouped task both reject a second `issue_query`. -/
theorem C3_witness :
    ModelRunnerPoolExecutor.issue_query (fun n : Nat => (Outcome.ok n : Outcome Unit Nat))
        ⟨[(0, 7)], true⟩ [(1, 5)] = (⟨[(0, 7)], true⟩, [], .error .lifecycle) ∧
    ModelRunnerMultiProcessingPool.issue_query
        (fun n : Nat => (Outcome.ok n : Outcome Unit Nat))
        ⟨some [(7, .ok 3)], true⟩ [(1, 5)] =
      (⟨some [(7, .ok 3)], true⟩, .error .lifecycle) :=
  ⟨(C3_pool_issue_requires_idle _ ⟨[(0, 7)], true⟩ [(1, 5)]
      (fun n : Nat => (Outcome.ok n : Outcome Unit Nat)) ⟨some [(7, .ok 3)], true⟩
      [(1, 5)]).1 (by decide),
   (C3_pool_issue_requires_idle (fun n : Nat => (Outcome.ok n : Outcome Unit Nat))
      ⟨[(0, 7)], true⟩ [(1, 5)] _ ⟨some [(7, .ok 3)], true⟩ [(1, 5)]).2.2.1 (by decide)⟩

/-- Claim C5: for the batch-pool runner in the idle state (no pending
grouped task), `flush_queries` fails with the lifecycle error, invokes no
callback (the error return carries no delivered mapping) and changes
nothing. -/
theorem C5_flush_without_pending (st : MPPoolState ε β) (h : st.task = none) :
    ModelRunnerMultiProcessingPool.flush_queries st = (st, .error .lifecycle) := by
  obtain ⟨task, cb⟩ := st
  cases h
  rfl

/-- Witness for C5: flushing a freshly idle batch-pool runner fails. -/
theorem C5_witness :
    ModelRunnerMultiProcessingPool.flush_queries (MPPoolState.idle : MPPoolState Unit Nat) =
      (MPPoolState.idle, .error .lifecycle) :=
  C5_flush_without_pending _ rfl

/-- Creation count of a TLS-pool schedule: one factory call per initializer
run, none for query executions. -/
theorem tls_run_created (p : α → β) (st : TLSState) (l : List (TLSEvent α)) :
    (ModelRunnerTLS.run p st l).1.created = st.created + l.countP TLSEvent.isInit := by
  induction l generalizing st with
  | nil => simp [ModelRunnerTLS.run]
  | cons ev rest ih =>
    cases ev with
    | init t =>
      simp only [ModelRunnerTLS.run, List.countP_cons, ih, ModelRunnerTLS.tls_init,
        TLSEvent.isInit]
      simp
      omega
    | predictq t qid inp =>
      simp only [ModelRunnerTLS.run, List.countP_cons, ih, TLSEvent.isInit]
      simp

/-- `ModelRunnerRay.enter` constructs one fresh model per actor: the actors
hold the instance indices `s, s+1, ..., s+n-1` and the factory advances by
`n`. -/
theorem ray_enter_spec (n : Nat) : ∀ s : FactoryState,
    ModelRunnerRay.enter n s = (List.range' s n, s + n) := by
  induction n with
  | zero => intro s; rfl
  | succ m ih =>
    intro s
    simp only [ModelRunnerRay.enter, ModelFactory.create, ih (s + 1), Prod.mk.injEq]
    refine ⟨by simp [List.range'], ?_⟩
    exact Nat.add_right_comm s 1 m

theorem flatten_map_singleton (l : List γ) : (l.map fun r => [r]).flatten = l := by
  induction l with
  | nil => rfl
  | cons x t ih => simp [ih]

/-- Claim C4: for the batch-pool runner from the idle state, `issue_query`
succeeds, records exactly the grouped pending task (one unit per pair) and
the callback, and — being a pure record — blocks on nothing and invokes no
callback; a subsequent `flush_queries` retrieves the completed grouped task,
invokes the callback exactly once with the complete mapping (keys exactly
the batch's QueryIds, each mapped to its result), and resets the runner to
the idle state. -/
theorem C4_batch_issue_then_flush {ε : Type} (f : α → β)
    (queries : List (QueryId × α)) (hkeys : (queries.map Prod.fst).Nodup) :
    (ModelRunnerMultiProcessingPool.issue_query
        (fun a => (Outcome.ok (f a) : Outcome ε β)) MPPoolState.idle queries) =
      (⟨some (queries.map fun q => (q.1, .ok (f q.2))), true⟩, .ok ()) ∧
    ModelRunnerMultiProcessingPool.flush_queries
        (⟨some (queries.map fun q => (q.1, .ok (f q.2))), true⟩ : MPPoolState ε β) =
      (MPPoolState.idle, .ok (queries.map fun q => (q.1, f q.2))) ∧
    ((queries.map fun q => (q.1, f q.2)).map Prod.fst = queries.map Prod.fst) ∧
    (∀ q ∈ queries,
      (queries.map fun w => (w.1, f w.2)).lookup q.1 = some (f q.2)) := by
  have hfst : ((queries.map fun w => (w.1, f w.2)).map Prod.fst) =
      queries.map Prod.fst := by
    rw [List.map_map]
    rfl
  refine ⟨rfl, ?_, hfst, ?_⟩
  · simp only [ModelRunnerMultiProcessingPool.flush_queries, collectResults_all_ok]
  · intro q hq
    exact lookup_eq_of_mem_of_nodup
      (List.mem_map_of_mem (fun w => (w.1, f w.2)) hq) (hfst ▸ hkeys)

/-- Witness for C4: a concrete two-query batch issued and flushed. -/
theorem C4_witness :
    ModelRunnerMultiProcessingPool.issue_query
        (fun a => (Outcome.ok (a + 1) : Outcome Unit Nat)) MPPoolState.idle
        [(1, 10), (2, 20)] =
      (⟨some [(1, .ok 11), (2, .ok 21)], true⟩, .ok ()) ∧
    ModelRunnerMultiProcessingPool.flush_queries
        (⟨some [(1, .ok 11), (2, .ok 21)], true⟩ : MPPoolState Unit Nat) =
      (MPPoolState.idle, .ok [(1, 11), (2, 21)]) := by
  have h := C4_batch_issue_then_flush (ε := Unit) (fun a : Nat => a + 1)
    [(1, 10), (2, 20)] (by decide)
  exact ⟨h.1, h.2.1⟩

/-- Claim C7: `ModelFactory.create()` is invoked exactly once per worker
unit over a runner's lifetime — once in total for InlineRunner and
ThreadPoolRunner (shared model), once per worker-thread initializer run for
the thread-local variant (independent of queries), once for the grouped
batch pool, and once per actor for the distributed variant (each actor a
distinct fresh instance); for the process-pool variant the single instance
is created by `__init__` and bound to the process-wide class global before
`__enter__` starts the pool, where every worker's predictor finds it. -/
theorem C7_factory_once_per_worker (s : FactoryState) (n : Nat) (p : α → β)
    (g : γ → δ) (st : TLSState) (l : List (TLSEvent γ)) :
    (ModelRunnerInline.ctor s).2 = s + 1 ∧
    (ModelRunnerThreadPoolExecutor.ctor s).2 = s + 1 ∧
    (ModelRunnerTLS.run g st l).1.created = st.created + l.countP TLSEvent.isInit ∧
    (ModelRunnerProcessPoolExecutor.lifecycle s).2 = s + 1 ∧
    (ModelRunnerProcessPoolExecutor.ctor s).1.modelOf = some s ∧
    (ModelRunnerProcessPoolExecutor.lifecycle s).1.globals =
      (ModelRunnerProcessPoolExecutor.ctor s).1 ∧
    (ModelRunnerProcessPoolExecutor.lifecycle s).1.poolStarted = true ∧
    (∀ a : α, ModelRunnerProcessPoolExecutor.worker_predict
        (ModelRunnerProcessPoolExecutor.lifecycle s).1.globals p a = .ok (p a)) ∧
    (ModelRunnerMultiProcessingPool.ctor s).2 = s + 1 ∧
    (ModelRunnerRay.enter n s).1 = List.range' s n ∧
    (ModelRunnerRay.enter n s).1.Nodup ∧
    (ModelRunnerRay.enter n s).2 = s + n := by
  refine ⟨rfl, rfl, tls_run_created g st l, rfl, rfl, rfl, rfl, fun a => rfl, rfl,
    ?_, ?_, ?_⟩
  · exact congrArg Prod.fst (ray_enter_spec n s)
  · rw [congrArg Prod.fst (ray_enter_spec n s)]
    exact List.nodup_range' s n
  · exact congrArg Prod.snd (ray_enter_spec n s)

/-- Witness for C7 at concrete inputs: factory counts for each variant with
three actors and a thread-local schedule of two initializer runs. -/
theorem C7_witness :
    (ModelRunnerInline.ctor 0).2 = 1 ∧
    (ModelRunnerTLS.run (fun n : Nat => n) TLSState.start
        [.init 0, .init 1, .predictq 0 5 7]).1.created = 2 ∧
    (ModelRunnerRay.enter 3 0).1 = [0, 1, 2] := by
  have h := C7_factory_once_per_worker 0 3 (fun n : Nat => n) (fun n : Nat => n)
    TLSState.start [.init 0, .init 1, .predictq 0 5 7]
  refine ⟨h.1, ?_, ?_⟩
  · rw [h.2.2.1]
    decide
  · rw [h.2.2.2.2.2.2.2.2.2.1]
    decide

/-- Claim C8: the distributed-actor-pool runner's `issue_query` collects the
(QueryId, QueryResult) results of every query and invokes the callback for
all of them before returning: the trace it produces on return consists of
one single-entry invocation per query, covering each QueryId exactly once
with its predicted value — synchronous, batch-blocking delivery. -/
theorem C8_ray_synchronous_delivery [DecidableEq β] (p : α → β)
    (queries : List (QueryId × α)) (hkeys : (queries.map Prod.fst).Nodup) :
    (ModelRunnerRay.issue_query p queries).flatten =
      queries.map (fun q => (q.1, p q.2)) ∧
    (∀ c ∈ ModelRunnerRay.issue_query p queries, c.length = 1) ∧
    (∀ q ∈ queries,
      countEq ((ModelRunnerRay.issue_query p queries).flatten) (q.1, p q.2) = 1) := by
  have hflat : (ModelRunnerRay.issue_query p queries).flatten =
      queries.map (fun q => (q.1, p q.2)) :=
    flatten_map_singleton _
  have hnd : (queries.map (fun q => (q.1, p q.2))).Nodup := by
    refine List.Nodup.of_map Prod.fst ?_
    have : ((queries.map fun q => (q.1, p q.2)).map Prod.fst) =
        queries.map Prod.fst := by
      rw [List.map_map]
      rfl
    rw [this]
    exact hkeys
  refine ⟨hflat, ?_, ?_⟩
  · intro c hc
    obtain ⟨r, _, hr⟩ := List.mem_map.mp hc
    rw [← hr]
    rfl
  · intro q hq
    rw [hflat]
    exact countEq_eq_one_of_nodup hnd
      (List.mem_map_of_mem (fun w => (w.1, p w.2)) hq)

/-- Witness for C8: a concrete three-query batch delivered in full before
return. -/
theorem C8_witness :
    ([(1, 10), (2, 20), (3, 30)].map (Prod.fst (α := QueryId) (β := Nat))).Nodup ∧
    (ModelRunnerRay.issue_query (fun a : Nat => a * 2) [(1, 10), (2, 20), (3, 30)]).flatten =
      [(1, 20), (2, 40), (3, 60)] ∧
    countEq ((ModelRunnerRay.issue_query (fun a : Nat => a * 2)
        [(1, 10), (2, 20), (3, 30)]).flatten) (2, 40) = 1 :=
  ⟨by decide,
   by
    rw [(C8_ray_synchronous_delivery (fun a : Nat => a * 2) [(1, 10), (2, 20), (3, 30)]
      (by decide)).1]
    decide,
   (C8_ray_synchronous_delivery (fun a : Nat => a * 2) [(1, 10), (2, 20), (3, 30)]
      (by decide)).2.2 (2, 20) (by decide)⟩

/-! ### Issuing and draining a batch on a pool executor -/

/-- `issue_query` from the idle executor state followed by the completion
hooks of the created futures in completion order `order`: final state,
callback trace and surfaced errors. -/
def issue_and_drain (p : α → Outcome ε β) (queries : List (QueryId × α))
    (order : List (PendingFuture ε β)) :
    PoolExecState × List (List (QueryId × β)) × List ε :=
  ModelRunnerPoolExecutor.drain
    (ModelRunnerPoolExecutor.issue_query p PoolExecState.idle queries).1 order

theorem issue_query_idle (p : α → Outcome ε β) (queries : List (QueryId × α)) :
    ModelRunnerPoolExecutor.issue_query p PoolExecState.idle queries =
      (⟨(mkFutures p queries).map (fun f => (f.fid, f.qid)), true⟩,
       mkFutures p queries, .ok ()) := rfl

theorem table_map_fst (fs : List (PendingFuture ε β)) :
    ((fs.map (fun f => (f.fid, f.qid))).map Prod.fst) = fs.map PendingFuture.fid := by
  rw [List.map_map]
  rfl

theorem mkFutures_filterMap_pair (p : α → Outcome ε β)
    (queries : List (QueryId × α)) :
    (mkFutures p queries).filterMap
        (fun f => f.res.toOption.map (fun v => (f.qid, v))) =
      queries.filterMap (fun q => (p q.2).toOption.map (fun v => (q.1, v))) :=
  mkFuturesFrom_filterMap p (fun qid res => res.toOption.map (fun v => (qid, v)))
    queries 0

theorem mkFutures_filterMap_err (p : α → Outcome ε β)
    (queries : List (QueryId × α)) :
    (mkFutures p queries).filterMap
        (fun f => match f.res with | .fail d => some d | .ok _ => none) =
      queries.filterMap
        (fun q => match p q.2 with | .fail d => some d | .ok _ => none) :=
  mkFuturesFrom_filterMap p
    (fun _ res => match res with | .fail d => some d | .ok _ => none) queries 0

/-- Any completion-order drain of an issued batch delivers, up to
permutation, one (QueryId, result) pair per successfully predicted query,
and surfaces, up to permutation, the error of every failed query. -/
theorem issue_and_drain_spec (p : α → Outcome ε β) (queries : List (QueryId × α))
    (order : List (PendingFuture ε β))
    (hperm : order.Perm (mkFutures p queries)) :
    ((issue_and_drain p queries order).2.1.flatten).Perm
      (queries.filterMap (fun q => (p q.2).toOption.map (fun v => (q.1, v)))) ∧
    ((issue_and_drain p queries order).2.2).Perm
      (queries.filterMap
        (fun q => match p q.2 with | .fail d => some d | .ok _ => none)) := by
  have hfid : ((mkFutures p queries).map PendingFuture.fid).Nodup :=
    mkFutures_fid_nodup p queries
  have hnd : (order.map PendingFuture.fid).Nodup :=
    ((hperm.map PendingFuture.fid).nodup_iff).mpr hfid
  have htnd :
      (((mkFutures p queries).map (fun f => (f.fid, f.qid))).map Prod.fst).Nodup := by
    rw [table_map_fst]
    exact hfid
  have hmem : ∀ f ∈ order, (f.fid, f.qid) ∈
      (mkFutures p queries).map (fun f => (f.fid, f.qid)) := by
    intro f hf
    exact List.mem_map_of_mem (fun f => (f.fid, f.qid)) (hperm.mem_iff.mp hf)
  have hdr := drain_spec order ((mkFutures p queries).map (fun f => (f.fid, f.qid)))
    true hnd htnd hmem
  have hd1 : (issue_and_drain p queries order).2.1 =
      order.filterMap (fun f => f.res.toOption.map (fun v => [(f.qid, v)])) := by
    show (ModelRunnerPoolExecutor.drain
        ⟨(mkFutures p queries).map (fun f => (f.fid, f.qid)), true⟩ order).2.1 = _
    rw [hdr]
  have hd2 : (issue_and_drain p queries order).2.2 =
      order.filterMap (fun f => match f.res with | .fail e => some e | .ok _ => none) := by
    show (ModelRunnerPoolExecutor.drain
        ⟨(mkFutures p queries).map (fun f => (f.fid, f.qid)), true⟩ order).2.2 = _
    rw [hdr]
  constructor
  · rw [hd1, flatten_filterMap_singleton, ← mkFutures_filterMap_pair]
    exact hperm.filterMap (fun f => f.res.toOption.map (fun v => (f.qid, v)))
  · rw [hd2, ← mkFutures_filterMap_err]
    exact hperm.filterMap
      (fun f => match f.res with | .fail e => some e | .ok _ => none)

/-- Claim C9: when the predictor fails for exactly one QueryId of a batch,
the callback-draining (per-future) variants deliver nothing for that
QueryId, still deliver every other query exactly once with its correct
result, regardless of completion order, and the failure surfaces exactly at
that query's retrieval (every surfaced error is that query's, and one does
surface); the batch-style variant's `flush_queries` propagates the error
and never invokes the batch callback (the flush errors, delivering no
mapping, and leaves the pending state). -/
theorem C9_failure_isolation [DecidableEq β] (p : α → Outcome ε β)
    (queries : List (QueryId × α)) (bad : QueryId) (e : ε)
    (hkeys : (queries.map Prod.fst).Nodup)
    (hbad : ∀ q ∈ queries, q.1 = bad → p q.2 = .fail e)
    (hok : ∀ q ∈ queries, q.1 ≠ bad → (p q.2).isOk = true)
    (order : List (PendingFuture ε β))
    (hperm : order.Perm (mkFutures p queries)) :
    (∀ d ∈ (issue_and_drain p queries order).2.1.flatten, d.1 ≠ bad) ∧
    (∀ q ∈ queries, ∀ v, p q.2 = .ok v →
      countEq ((issue_and_drain p queries order).2.1.flatten) (q.1, v) = 1) ∧
    (∀ d ∈ (issue_and_drain p queries order).2.2, d = e) ∧
    (bad ∈ queries.map Prod.fst → (issue_and_drain p queries order).2.2 ≠ []) ∧
    (bad ∈ queries.map Prod.fst →
      ModelRunnerMultiProcessingPool.flush_queries
          (⟨some (queries.map fun q => (q.1, p q.2)), true⟩ : MPPoolState ε β) =
        (⟨some (queries.map fun q => (q.1, p q.2)), true⟩,
         .error (.prediction e))) := by
  obtain ⟨hD, hE⟩ := issue_and_drain_spec p queries order hperm
  refine ⟨?_, ?_, ?_, ?_, ?_⟩
  · intro d hd
    obtain ⟨q, hq, hsome⟩ := List.mem_filterMap.mp (hD.mem_iff.mp hd)
    cases hpv : p q.2 with
    | ok v =>
      rw [hpv] at hsome
      obtain rfl : (q.1, v) = d := by simpa using hsome
      intro hdbad
      have hqbad : q.1 = bad := hdbad
      have hcontr := hbad q hq hqbad
      rw [hpv] at hcontr
      exact Outcome.noConfusion hcontr
    | fail d2 =>
      rw [hpv] at hsome
      simp at hsome
  · intro q hq v hv
    rw [countEq_perm hD]
    have hsub := filterMap_pair_fst_sublist p queries
    have hndf : (queries.filterMap
        (fun w => (p w.2).toOption.map (fun u => (w.1, u)))).Nodup :=
      List.Nodup.of_map Prod.fst (List.Nodup.sublist hsub hkeys)
    refine countEq_eq_one_of_nodup hndf (List.mem_filterMap.mpr ⟨q, hq, ?_⟩)
    rw [hv]
    rfl
  · intro d hd
    obtain ⟨q, hq, hsome⟩ := List.mem_filterMap.mp (hE.mem_iff.mp hd)
    cases hpv : p q.2 with
    | ok v =>
      rw [hpv] at hsome
      simp at hsome
    | fail d2 =>
      rw [hpv] at hsome
      simp at hsome
      by_cases hqb : q.1 = bad
      · have hfe := hbad q hq hqb
        rw [hpv] at hfe
        injection hfe with h2
        rw [← hsome]
        exact h2
      · have hco := hok q hq hqb
        rw [hpv] at hco
        simp at hco
  · intro hmemb hnil
    obtain ⟨w, hw, hw1⟩ := List.mem_map.mp hmemb
    rw [hnil] at hE
    have hin2 : e ∈ ([] : List ε) := by
      refine hE.mem_iff.mpr ?_
      refine List.mem_filterMap.mpr ⟨w, hw, ?_⟩
      rw [hbad w hw hw1]
    exact List.not_mem_nil e hin2
  · intro hmemb
    obtain ⟨w0, hw0, hw01⟩ := List.mem_map.mp hmemb
    have hcr : collectResults (queries.map fun w => (w.1, p w.2)) = .error e := by
      refine collectResults_fail_of_forall ?_ ?_
      · intro x hx d hxd
        obtain ⟨w, hw, hwx⟩ := List.mem_map.mp hx
        have hx2 : p w.2 = Outcome.fail d := by
          rw [← hwx] at hxd
          exact hxd
        by_cases hwb : w.1 = bad
        · have hbw := hbad w hw hwb
          rw [hx2] at hbw
          injection hbw
        · have hkw := hok w hw hwb
          rw [hx2] at hkw
          simp at hkw
      · refine ⟨(w0.1, p w0.2), List.mem_map_of_mem (fun w => (w.1, p w.2)) hw0, ?_⟩
        have hpf := hbad w0 hw0 hw01
        rw [hpf]
        rfl
    simp [ModelRunnerMultiProcessingPool.flush_queries, hcr]

/-- Claim C10: after a flush whose grouped-result retrieval raises (some
prediction in the batch failed), the pending-task and stored-callback
fields are unchanged — the runner stays in the pending state — so every
subsequent `issue_query` fails its empty-state precondition. -/
theorem C10_failed_flush_keeps_pending (task : List (QueryId × Outcome ε β))
    (cb : Bool) (hex : ∃ x ∈ task, x.2.isOk = false) :
    (∃ d, ModelRunnerMultiProcessingPool.flush_queries
        (⟨some task, cb⟩ : MPPoolState ε β) =
      (⟨some task, cb⟩, .error (.prediction d))) ∧
    (∀ (p : α → Outcome ε β) (queries : List (QueryId × α)),
      ModelRunnerMultiProcessingPool.issue_query p ⟨some task, cb⟩ queries =
        (⟨some task, cb⟩, .error .lifecycle)) := by
  obtain ⟨d, hd⟩ := collectResults_fail_exists hex
  exact ⟨⟨d, by simp [ModelRunnerMultiProcessingPool.flush_queries, hd]⟩,
    fun p queries => rfl⟩

/-- Witness for C10: a two-entry grouped task whose second unit failed. -/
theorem C10_witness :
    (∃ x ∈ ([(1, .ok 5), (2, .fail 0)] : List (QueryId × Outcome Nat Nat)),
      x.2.isOk = false) ∧
    (∃ d, ModelRunnerMultiProcessingPool.flush_queries
        (⟨some [(1, .ok 5), (2, .fail 0)], true⟩ : MPPoolState Nat Nat) =
      (⟨some [(1, .ok 5), (2, .fail 0)], true⟩, .error (.prediction d))) ∧
    (∀ (p : Nat → Outcome Nat Nat) (queries : List (QueryId × Nat)),
      ModelRunnerMultiProcessingPool.issue_query p
          ⟨some [(1, .ok 5), (2, .fail 0)], true⟩ queries =
        (⟨some [(1, .ok 5), (2, .fail 0)], true⟩, .error .lifecycle)) := by
  refine ⟨by decide, ?_, ?_⟩
  · exact (C10_failed_flush_keeps_pending (α := Nat)
      ([(1, .ok 5), (2, .fail 0)] : List (QueryId × Outcome Nat Nat)) true (by decide)).1
  · exact (C10_failed_flush_keeps_pending (α := Nat)
      ([(1, .ok 5), (2, .fail 0)] : List (QueryId × Outcome Nat Nat)) true (by decide)).2

/-- A predictor failing exactly for QueryId 2's input (20) in the witness
batch, succeeding with `a + 1` elsewhere. -/
def failingPredictor (a : Nat) : Outcome Nat Nat :=
  if a = 20 then .fail 7 else .ok (a + 1)

/-- A completion order for the C9 witness: the three futures complete in
reverse submission order. -/
def C9order : List (PendingFuture Nat Nat) :=
  [⟨2, 3, .ok 31⟩, ⟨1, 2, .fail 7⟩, ⟨0, 1, .ok 11⟩]

/-- Witness for C9: a three-query batch whose middle query fails, drained in
reverse completion order, and the same batch flushed on the batch-pool
runner. -/
theorem C9_witness :
    (([(1, 10), (2, 20), (3, 30)] : List (QueryId × Nat)).map Prod.fst).Nodup ∧
    C9order.Perm (mkFutures failingPredictor [(1, 10), (2, 20), (3, 30)]) ∧
    (∀ d ∈ (issue_and_drain failingPredictor [(1, 10), (2, 20), (3, 30)]
        C9order).2.1.flatten, d.1 ≠ 2) ∧
    countEq ((issue_and_drain failingPredictor [(1, 10), (2, 20), (3, 30)]
        C9order).2.1.flatten) ((1 : QueryId), (11 : Nat)) = 1 ∧
    countEq ((issue_and_drain failingPredictor [(1, 10), (2, 20), (3, 30)]
        C9order).2.1.flatten) ((3 : QueryId), (31 : Nat)) = 1 ∧
    (∀ d ∈ (issue_and_drain failingPredictor [(1, 10), (2, 20), (3, 30)]
        C9order).2.2, d = 7) ∧
    (issue_and_drain failingPredictor [(1, 10), (2, 20), (3, 30)] C9order).2.2 ≠ [] ∧
    ModelRunnerMultiProcessingPool.flush_queries
        (⟨some ([(1, 10), (2, 20), (3, 30)].map fun q => (q.1, failingPredictor q.2)),
          true⟩ : MPPoolState Nat Nat) =
      (⟨some ([(1, 10), (2, 20), (3, 30)].map fun q => (q.1, failingPredictor q.2)),
        true⟩, .error (.prediction 7)) := by
  have H := C9_failure_isolation failingPredictor
    ([(1, 10), (2, 20), (3, 30)] : List (QueryId × Nat)) 2 7
    (by decide) (by decide) (by decide) C9order (by decide)
  exact ⟨by decide, by decide, H.1, H.2.1 (1, 10) (by decide) 11 (by decide),
    H.2.1 (3, 30) (by decide) 31 (by decide), H.2.2.1, H.2.2.2.1 (by decide),
    H.2.2.2.2 (by decide)⟩

/-! ### The thread-local-pool initializer defect (claims C1 and C6)

In the source, `_tls_init` executes
`ModelRunnerThreadPoolExecutorWithTLS.tls = threading.local()` and then
stores the freshly created model on that object: every initializer run
REBINDS the class attribute shared by all threads.  Once a second worker
thread initializes, the first thread's model — stored on the discarded
local object — is unreachable; the first thread's `_tls_predict` then reads
the new local object, which holds no `model` attribute for that thread, and
raises `AttributeError`.  The worker's future holds that exception, so
`_future_callback` re-raises at `f.result()` and never invokes the
callback for that query. -/

/-- Claim C6 (code divergence): with two worker threads the initializer runs
once per thread — exactly 2 models are constructed — but after thread 1's
initializer rebinds the shared `tls` attribute, thread 0's own stored
instance is unreachable: its lookup finds nothing and its prediction raises,
instead of using the calling thread's own stored instance as the claim
requires. -/
theorem C6_tls_init_clobbers_thread_instance :
    (ModelRunnerTLS.tls_init 1 (ModelRunnerTLS.tls_init 0 TLSState.start)).created = 2 ∧
    (ModelRunnerTLS.tls_init 1 (ModelRunnerTLS.tls_init 0 TLSState.start)).model_for 1 =
      some 1 ∧
    (ModelRunnerTLS.tls_init 0 TLSState.start).model_for 0 = some 0 ∧
    (ModelRunnerTLS.tls_init 1 (ModelRunnerTLS.tls_init 0 TLSState.start)).model_for 0 =
      none ∧
    ModelRunnerTLS.tls_predict (fun n : Nat => n + 1)
      (ModelRunnerTLS.tls_init 1 (ModelRunnerTLS.tls_init 0 TLSState.start)) 0 5 =
      .fail () := by
  decide

/-- Claim C1 (code divergence): on the thread-local-pool variant with two
worker threads, batch \x7b1: 10, 2: 20\x7d and the identity model, the schedule
[thread 0 initializer; thread 1 initializer; thread 0 executes query 1;
thread 1 executes query 2] makes query 1's worker raise (its model was
orphaned by thread 1's initializer rebinding `tls`), so draining the handle
table `[(0, 1), (1, 2)]` that `issue_query` recorded delivers query 2 once
but query 1 zero times — not exactly once with `predict(10) = 10` as the
claim requires of every runner variant. -/
theorem C1_tls_query_never_delivered :
    (ModelRunnerTLS.run (fun n : Nat => n) TLSState.start
        [.init 0, .init 1, .predictq 0 1 10, .predictq 1 2 20]).2 =
      [(1, .fail ()), (2, .ok 20)] ∧
    (ModelRunnerPoolExecutor.drain ⟨[(0, 1), (1, 2)], true⟩
        ([⟨0, 1, .fail ()⟩, ⟨1, 2, .ok 20⟩] : List (PendingFuture Unit Nat))).2.1.flatten =
      [(2, 20)] ∧
    countEq ((ModelRunnerPoolExecutor.drain ⟨[(0, 1), (1, 2)], true⟩
        ([⟨0, 1, .fail ()⟩, ⟨1, 2, .ok 20⟩] : List (PendingFuture Unit Nat))).2.1.flatten)
      ((1 : QueryId), (10 : Nat)) = 0 ∧
    countEq ((ModelRunnerPoolExecutor.drain ⟨[(0, 1), (1, 2)], true⟩
        ([⟨0, 1, .fail ()⟩, ⟨1, 2, .ok 20⟩] : List (PendingFuture Unit Nat))).2.1.flatten)
      ((2 : QueryId), (20 : Nat)) = 1 := by
  decide

end LoadGen
